import Mathlib

/-!
# Verification of the Playright workflow automation core

A shallow embedding of the workflow execution state machine
(`workflow_executor.py`), the admission validator
(`gemini_integration.py :: validate_workflow`) and the job scheduler
(`workflow_scheduler.py`) of the Playright repository, together with
proofs and refutations of the specification claims.

Modelling conventions:
* Python `dict.get(k)` on step/workflow dictionaries is modelled with
  `Option` fields (`none` = key absent).  Python truthiness (`if not x`)
  on an optional string is `none` or `some ""`.
* The browser automation capability (`automation_engine.py`) is external
  I/O; it is modelled as an oracle `EngineFun : EngineCall → Except String
  String` mapping each dispatched capability call to its outcome.  The
  `EngineCall` value records exactly the arguments the executor passes.
* Exceptions are modelled with `Except String`; the message is the
  exception text the Python code produces.
* Wall-clock values are modelled by an abstract `DateTime` (day index,
  hour, minute, second); `datetime.now()` becomes an explicit parameter.
  The per-step screenshot timestamp default is a `String` parameter
  `ts` supplied by a clock function.
* The third-party `schedule` library (job tags, `schedule.every`,
  `schedule.clear`) is not part of the repository; its behaviour at the
  interface the scheduler uses is: `.day.at(t)` validates the time-of-day
  format and raises `ScheduleValueError` for a string it rejects — before
  the caller's registry assignment (modelled by `schedule_at_accepts`);
  `.do(f).tag(n)` registers a callback; and `schedule.clear(tag)`
  silently removes callbacks and never raises for an unknown tag.
* Session teardown (`close_browser` in the executor's `finally` block) is
  visible in results only when the session-acquisition itself failed
  early; the `StartOutcome` type carries which teardown behaviour a
  given acquisition failure leads to.
-/

namespace Playright

/-- Abstract wall-clock instant: an opaque day index plus time of day.
`datetime.replace(hour := h, minute := m, second := 0, microsecond := 0)`
keeps the day and overwrites the time-of-day fields; microseconds are
absorbed into `second` (they only refine the same lexicographic order). -/
structure DateTime where
  day : Nat
  hour : Nat
  minute : Nat
  second : Nat
deriving DecidableEq, Repr

/-- Lexicographic `≤` on datetimes, as Python compares `datetime` values. -/
def dtLe (a b : DateTime) : Bool :=
  decide (a.day < b.day ∨ (a.day = b.day ∧ (a.hour < b.hour ∨ (a.hour = b.hour ∧
    (a.minute < b.minute ∨ (a.minute = b.minute ∧ a.second ≤ b.second))))))

/-- Strict lexicographic `<` on datetimes. -/
def dtLt (a b : DateTime) : Bool :=
  dtLe a b && a ≠ b

/-- Minute addition `d + timedelta(minutes := k)`, with carries into hours and days. -/
def addMinutes (d : DateTime) (k : Nat) : DateTime :=
  let m := d.minute + k
  let h := d.hour + m / 60
  { day := d.day + h / 24, hour := h % 24, minute := m % 60, second := d.second }

/-- Day increment `d + timedelta(days := 1)`. -/
def addDay (d : DateTime) : DateTime :=
  { d with day := d.day + 1 }

/-- One workflow step: a dictionary with the keys the executor and the
validator read (`workflow_executor.py :: _execute_step`,
`gemini_integration.py :: validate_workflow`).  `none` = key absent. -/
structure Step where
  action : Option String := none
  url : Option String := none
  selector : Option String := none
  selector_type : Option String := none
  text : Option String := none
  timeout : Option Nat := none
  key : Option String := none
  path : Option String := none
deriving DecidableEq, Repr

/-- A workflow dictionary: the keys read by `execute_workflow` and
`validate_workflow`.  `steps = none` models the `steps` key being absent
(`workflow.get("steps", [])` then yields `[]`). -/
structure Workflow where
  name : Option String := none
  description : Option String := none
  steps : Option (List Step) := none
deriving DecidableEq, Repr

/-- Python truthiness of an optional string: `None` and `""` are falsy. -/
def truthy : Option String → Bool
  | none => false
  | some s => s ≠ ""

/-- The capability call the Step Executor dispatches to the
`BrowserAutomationEngine`, with the exact arguments passed. -/
inductive EngineCall where
  | navigate (url : String)
  | click (selector selTy : String)
  | typeText (selector text selTy : String)
  | waitFor (selector : String) (timeout : Nat) (selTy : String)
  | getText (selector selTy : String)
  | screenshot (path : String)
deriving DecidableEq, Repr

/-- The automation capability as an oracle: the outcome of each call.
`.ok s` returns `s` (only `getText` reads the returned string);
`.error e` models the underlying browser action raising with message `e`. -/
abbrev EngineFun : Type := EngineCall → Except String String

/-- The mutable `results` dictionary of `execute_workflow`
(`workflow_executor.py` lines 22–31), without the wall-clock
`start_time`/`end_time` fields, which no claim concerns.
`extracted_data` is an insertion-ordered association list with unique
keys, as a Python dict. -/
structure RunResult where
  workflow_name : String
  steps_executed : Nat
  total_steps : Nat
  success : Bool
  errors : List String
  screenshots : List String
  extracted_data : List (String × String)
deriving DecidableEq, Repr

/-- Dict assignment `d[k] = v`: replace in place if the key exists,
otherwise append. -/
def insertAssoc : List (String × String) → String → String → List (String × String)
  | [], k, v => [(k, v)]
  | (k', v') :: rest, k, v =>
    if k' = k then (k, v) :: rest else (k', v') :: insertAssoc rest k v

/-- The parameter checking and dispatch of `_execute_step`
(`workflow_executor.py` lines 69–117): which capability call a step
produces, or the `ValueError` message raised before any capability call.
`ts` is the formatted timestamp used for the default screenshot path. -/
def dispatch_call (ts : String) (step : Step) : Except String EngineCall :=
  match step.action with
  | some "navigate" =>
    if truthy step.url then .ok (.navigate (step.url.getD ""))
    else .error "Navigate action requires 'url' parameter"
  | some "click" =>
    if truthy step.selector then
      .ok (.click (step.selector.getD "") (step.selector_type.getD "css"))
    else .error "Click action requires 'selector' parameter"
  | some "type" =>
    if truthy step.selector && truthy step.text then
      .ok (.typeText (step.selector.getD "") (step.text.getD "")
        (step.selector_type.getD "css"))
    else .error "Type action requires 'selector' and 'text' parameters"
  | some "wait" =>
    if truthy step.selector then
      .ok (.waitFor (step.selector.getD "") (step.timeout.getD 10)
        (step.selector_type.getD "css"))
    else .error "Wait action requires 'selector' parameter"
  | some "get_text" =>
    if truthy step.selector then
      .ok (.getText (step.selector.getD "") (step.selector_type.getD "css"))
    else .error "Get_text action requires 'selector' parameter"
  | some "screenshot" =>
    .ok (.screenshot (step.path.getD ("screenshot_" ++ ts ++ ".png")))
  | some a => .error ("Unknown action: " ++ a)
  | none => .error "Unknown action: None"

/-- Embedding of `_execute_step`: dispatch the capability call, then apply the step's
result mutations (`extracted_data` for `get_text`, `screenshots` for
`screenshot`).  `.error e` models the step raising with message `e`;
a raising step leaves `res` unmutated (all mutations in the source happen
after the capability call returned). -/
def execute_step (eng : EngineFun) (ts : String) (step : Step) (res : RunResult) :
    Except String RunResult :=
  match dispatch_call ts step with
  | .error e => .error e
  | .ok c =>
    match eng c with
    | .error e => .error e
    | .ok ret =>
      match c with
      | .getText _ _ =>
        let k := step.key.getD ("text_" ++ toString res.extracted_data.length)
        .ok { res with extracted_data := insertAssoc res.extracted_data k ret }
      | .screenshot p => .ok { res with screenshots := res.screenshots ++ [p] }
      | _ => .ok res

/-- The step loop of `execute_workflow` (lines 42–53): `i` is the
1-based `enumerate` index, `clock` supplies each step's screenshot
timestamp.  On success `steps_executed` is incremented and the loop
continues; on failure a single `"Step i failed: …"` error is appended,
`success` is cleared and the loop breaks. -/
def runSteps (eng : EngineFun) (clock : Nat → String) (i : Nat)
    (steps : List Step) (res : RunResult) : RunResult :=
  match steps with
  | [] => res
  | s :: rest =>
    match execute_step eng (clock i) s res with
    | .ok res' =>
      runSteps eng clock (i + 1) rest
        { res' with steps_executed := res'.steps_executed + 1 }
    | .error e =>
      { res with
        success := false
        errors := res.errors ++ ["Step " ++ toString i ++ " failed: " ++ e] }

/-- The `results` dictionary as initialised at lines 22–31. -/
def init_results (wf : Workflow) : RunResult :=
  { workflow_name := wf.name.getD "Unknown"
    steps_executed := 0
    total_steps := (wf.steps.getD []).length
    success := true
    errors := []
    screenshots := []
    extracted_data := [] }

/-- Outcome of the session-acquisition phase of `execute_workflow`
(constructing the engine and `start_browser()`), refined by what the
`finally`-block teardown then does.  `started`: the browser started;
`close_browser` then acts on a fully initialised engine and is modelled
as succeeding.  `failClean e`: `start_browser` raised `e` at a point
where the teardown is harmless — every selenium failure
(`selenium_driver` is `None`, so `close_browser` skips it) and every
playwright failure after `async_playwright().start()` assigned
`self.playwright` (e.g. a failed `launch` or `new_page`; `close_browser`
then only calls `stop()` on the live handle).  `failEarly e`:
`async_playwright().start()` itself raised `e`, so `self.playwright` was
never assigned (`__init__` does not initialise it) and the
`if self.playwright:` test in `close_browser` raises `AttributeError`,
which `close_browser` re-raises. -/
inductive StartOutcome where
  | started (eng : EngineFun)
  | failClean (e : String)
  | failEarly (e : String)

/-- Message of the `AttributeError` that `close_browser` raises when
`self.playwright` was never assigned (`automation_engine.py` line 183),
as Python `str()` renders it. -/
def attrErr : String :=
  "'BrowserAutomationEngine' object has no attribute 'playwright'"

/-- Embedding of `execute_workflow` (`workflow_executor.py` lines
20–67).  `start` is the outcome of the session-acquisition phase.  On
`started` the step loop runs and the `finally` returns the results.  On
`failClean` the outer `except` appends `"Workflow execution failed: …"`,
clears `success`, and the `return results` inside the `finally`
suppresses the exception, so the caller receives the failed results.
On `failEarly` the `finally`-block `close_browser()` raises the
teardown `AttributeError`, which propagates before `return results` is
reached, so the function raises (`.error`) and the results — including
the recorded start error — are discarded. -/
def execute_workflow (start : StartOutcome) (clock : Nat → String)
    (wf : Workflow) : Except String RunResult :=
  let res := init_results wf
  match start with
  | .started eng => .ok (runSteps eng clock 1 (wf.steps.getD []) res)
  | .failClean e =>
    .ok { res with
      success := false
      errors := res.errors ++ ["Workflow execution failed: " ++ e] }
  | .failEarly _ => .error attrErr

/-- The per-step admission checks of `validate_workflow`
(`gemini_integration.py` lines 130–153), translated branch for branch.
Note the source's `elif` chain: the `"type"` case already matches the
`["click", "type", "wait", "get_text"]` branch, so the final
`elif step["action"] == "type"` arm (requiring `text`) is unreachable.
The `"x" in step` checks test key presence, not truthiness. -/
def validate_step (step : Step) : Bool :=
  match step.action with
  | none => false
  | some a =>
    if ¬ (a ∈ ["navigate", "click", "type", "wait", "get_text", "screenshot"]) then
      false
    else if a = "navigate" then step.url.isSome
    else if a ∈ ["click", "type", "wait", "get_text"] then step.selector.isSome
    else if a = "type" then step.text.isSome
    else true

/-- Embedding of `validate_workflow` (`gemini_integration.py` lines 115–160): the
required fields `name`, `description`, `steps` must be present, `steps`
must be a list (structurally guaranteed in this model) and every step
must pass its admission checks.  Returns `false` at the first offence. -/
def validate_workflow (wf : Workflow) : Bool :=
  wf.name.isSome && wf.description.isSome &&
    match wf.steps with
    | none => false
    | some steps => steps.all validate_step

/-- One entry of `self.scheduled_jobs` (`workflow_scheduler.py`).  Jobs
created by `schedule_workflow` carry `schedule_time`; jobs created by
`schedule_interval_workflow` carry `interval_minutes`; `last_result` and
`last_error` only appear after a dispatch.  `Option` models the key
being absent from the Python dict. -/
structure JobInfo where
  workflow : Workflow
  schedule_time : Option String := none
  interval_minutes : Option Nat := none
  repeatFlag : Bool
  created_at : DateTime
  last_run : Option DateTime := none
  next_run : DateTime
  last_result : Option RunResult := none
  last_error : Option String := none
deriving DecidableEq, Repr

/-- The in-memory Job Registry `self.scheduled_jobs`: an
insertion-ordered dict from job name to entry. -/
abbrev Registry : Type := List (String × JobInfo)

/-- Dict lookup `self.scheduled_jobs[n]` (first, and in a dict only, match). -/
def lookupJob : Registry → String → Option JobInfo
  | [], _ => none
  | (k, v) :: rest, n => if k = n then some v else lookupJob rest n

/-- Membership test `n in self.scheduled_jobs`. -/
def containsName (r : Registry) (n : String) : Bool :=
  (lookupJob r n).isSome

/-- Dict assignment `self.scheduled_jobs[n] = v`: replace in place when
the key exists, else append. -/
def insertJob : Registry → String → JobInfo → Registry
  | [], n, v => [(n, v)]
  | (k, w) :: rest, n, v =>
    if k = n then (k, v) :: rest else (k, w) :: insertJob rest n v

/-- In-place field update `self.scheduled_jobs[n][…] = …`. -/
def updateJob : Registry → String → (JobInfo → JobInfo) → Registry
  | [], _, _ => []
  | (k, v) :: rest, n, f =>
    if k = n then (k, f v) :: rest else (k, v) :: updateJob rest n f

/-- Dict deletion `del self.scheduled_jobs[n]` (no-op when absent, matching the
guarded delete in `remove_job`). -/
def eraseJob : Registry → String → Registry
  | [], _ => []
  | (k, v) :: rest, n =>
    if k = n then rest else (k, v) :: eraseJob rest n

/-- Value of a decimal digit character, `none` otherwise. -/
def charDigit (c : Char) : Option Nat :=
  if c.toNat ≥ 48 && c.toNat ≤ 57 then some (c.toNat - 48) else none

/-- Decimal value of a non-empty all-digit character sequence, as
Python `int` reads `"09"` as `9`; `none` when empty or any character is
not a digit (`int` raising `ValueError`). -/
def digitsToNat : List Char → Option Nat
  | [] => none
  | cs =>
    cs.foldl
      (fun acc c =>
        match acc, charDigit c with
        | some a, some d => some (a * 10 + d)
        | _, _ => none)
      (some 0)

/-- Splitting a character sequence on the colon, as `"HH:MM".split(':')`
(always at least one group; empty groups preserved). -/
def splitOnColon : List Char → List (List Char)
  | [] => [[]]
  | c :: rest =>
    let r := splitOnColon rest
    if c = ':' then [] :: r
    else
      match r with
      | [] => [[c]]
      | g :: gs => (c :: g) :: gs

/-- Parsing of the time of day: `split` on the colon, `int` on both
parts (exactly two parts, or the tuple unpacking raises), and the range
check `datetime.replace` performs (`ValueError` outside 0–23 / 0–59):
`none` models any of these raising, which `_get_next_run_time` catches.
(Python `int` also tolerates surrounding whitespace and an explicit
sign; such inputs are out of scope here.) -/
def parse_hm (s : String) : Option (Nat × Nat) :=
  match splitOnColon s.toList with
  | [hs, ms] =>
    match digitsToNat hs, digitsToNat ms with
    | some hh, some mm =>
      if hh ≤ 23 && mm ≤ 59 then some (hh, mm) else none
    | _, _ => none
  | _ => none

/-- Embedding of `_get_next_run_time` (`workflow_scheduler.py` lines 162–175): target
today at the given time of day; if that instant is `<= now`, tomorrow at
that time; on any parse/replace failure, `now + 1 day`. -/
def get_next_run_time (schedule_time : String) (now : DateTime) : DateTime :=
  match parse_hm schedule_time with
  | some (h, m) =>
    let next : DateTime := { day := now.day, hour := h, minute := m, second := 0 }
    if dtLe next now then addDay next else next
  | none => addDay now

/-- Numeric value of an exactly-two-digit character group. -/
def twoDigitVal : List Char → Option Nat
  | [a, b] =>
    match charDigit a, charDigit b with
    | some x, some y => some (x * 10 + y)
    | _, _ => none
  | _ => none

/-- Modelled from the spec: the acceptance check that
`schedule.every().day.at(t)` performs on a daily job's time of day.
The `schedule` library is an external dependency, not part of this
repository; the spec records its abort as part of the scheduling
contract ("fails with `SchedulingError` if … trigger spec is malformed
— e.g., unparseable time-of-day").  The library accepts `HH:MM` or
`HH:MM:SS` with exactly-two-digit groups, hour at most 23 and
minute/second at most 59, and raises `ScheduleValueError` for anything
else — before the registry assignment in `schedule_workflow` is
reached. -/
def schedule_at_accepts (s : String) : Bool :=
  match splitOnColon s.toList with
  | [h, m] =>
    match twoDigitVal h, twoDigitVal m with
    | some hh, some mm => hh ≤ 23 && mm ≤ 59
    | _, _ => false
  | [h, m, sec] =>
    match twoDigitVal h, twoDigitVal m, twoDigitVal sec with
    | some hh, some mm, some ss => hh ≤ 23 && mm ≤ 59 && ss ≤ 59
    | _, _, _ => false
  | _ => false

/-- Embedding of `schedule_workflow` (`workflow_scheduler.py` lines
26–68).  A falsy `job_name` (absent or empty) defaults to
`"workflow_<len+1>"`.  The `schedule.every().day.at(schedule_time)`
call at lines 53–56 (the same call on both branches of `repeat`) raises
for a time string the library rejects, aborting the request before the
registry assignment at line 58 — the registry is then left unchanged.
Otherwise the entry is installed with
`self.scheduled_jobs[job_name] = {...}` — dict assignment, which
silently overwrites an existing entry of the same name; there is no
duplicate-name check. -/
def schedule_workflow (now : DateTime) (jobs : Registry) (wf : Workflow)
    (schedule_time : String) (job_name : Option String) (rpt : Bool) :
    Except String (Registry × String) :=
  let name :=
    if truthy job_name then job_name.getD ""
    else "workflow_" ++ toString (jobs.length + 1)
  if schedule_at_accepts schedule_time then
    .ok
      (insertJob jobs name
        { workflow := wf
          schedule_time := some schedule_time
          interval_minutes := none
          repeatFlag := rpt
          created_at := now
          last_run := none
          next_run := get_next_run_time schedule_time now
          last_result := none
          last_error := none }, name)
  else
    .error ("Invalid time format for a daily job: " ++ schedule_time)

/-- Embedding of `schedule_interval_workflow` (`workflow_scheduler.py`
lines 101–138): same shape, with `interval_minutes` instead of a time of day,
`repeat = True` and `next_run = now + interval` minutes. -/
def schedule_interval_workflow (now : DateTime) (jobs : Registry) (wf : Workflow)
    (interval_minutes : Nat) (job_name : Option String) : Registry × String :=
  let name :=
    if truthy job_name then job_name.getD ""
    else "interval_workflow_" ++ toString (jobs.length + 1)
  let info : JobInfo :=
    { workflow := wf
      schedule_time := none
      interval_minutes := some interval_minutes
      repeatFlag := true
      created_at := now
      last_run := none
      next_run := addMinutes now interval_minutes
      last_result := none
      last_error := none }
  (insertJob jobs name info, name)

/-- Embedding of `_execute_scheduled_workflow` (`workflow_scheduler.py`
lines 140–160).  When `execute_workflow` returns a results object —
every step-level failure and every `failClean` session failure — the
registry update is reached: for a present job, `last_run` and
`last_result` are set, whether the run succeeded or failed.  The
`except` branch (setting only `last_error`, never
`last_run`/`last_result`) is reached when `execute_workflow` itself
raises (the `failEarly` teardown mode) or when persisting the results
file raises (`saveOutcome = .error e`).  The field `next_run` is never
touched on any path. -/
def execute_scheduled_workflow (start : StartOutcome)
    (clock : Nat → String) (saveOutcome : Except String Unit) (now : DateTime)
    (jobs : Registry) (wf : Workflow) (job_name : String) : Registry :=
  match execute_workflow start clock wf with
  | .error e =>
    if containsName jobs job_name then
      updateJob jobs job_name (fun j => { j with last_error := some e })
    else jobs
  | .ok results =>
    let jobs1 :=
      if containsName jobs job_name then
        updateJob jobs job_name
          (fun j => { j with last_run := some now, last_result := some results })
      else jobs
    match saveOutcome with
    | .ok _ => jobs1
    | .error e =>
      if containsName jobs1 job_name then
        updateJob jobs1 job_name (fun j => { j with last_error := some e })
      else jobs1

/-- Embedding of `remove_job` (`workflow_scheduler.py` lines 202–212).
`schedule.clear(tag)` never raises (unknown tags are silently ignored)
and the dict delete is membership-guarded, so the `except` branch is
unreachable and the function returns `True` for present and absent names
alike. -/
def remove_job (jobs : Registry) (job_name : String) : Registry × Bool :=
  (eraseJob jobs job_name, true)

/-- The serialized form of one job as read back by `load_schedule`
(`workflow_scheduler.py` lines 260–277): the workflow body, the trigger
spec fields and the `repeat` flag.  `save_schedule` also serializes the
bookkeeping fields (`created_at`, `last_run`, `next_run`, …), but
`load_schedule` never reads them, so they are not modelled. -/
structure SavedJob where
  workflow : Workflow
  schedule_time : Option String
  interval_minutes : Option Nat
  repeatFlag : Bool
deriving DecidableEq, Repr

/-- Embedding of `save_schedule` (`workflow_scheduler.py` lines 222–247),
restricted
to the fields `load_schedule` consumes: a per-job copy of the registry
entry (JSON round-tripping is the identity on these fields). -/
def save_schedule (jobs : Registry) : List (String × SavedJob) :=
  jobs.map fun p =>
    (p.1,
      { workflow := p.2.workflow
        schedule_time := p.2.schedule_time
        interval_minutes := p.2.interval_minutes
        repeatFlag := p.2.repeatFlag })

/-- The re-registration loop of `load_schedule` (lines 260–277), folding
over the saved entries after the registry was cleared: an entry with
`interval_minutes` goes through `schedule_interval_workflow`, any other
through `schedule_workflow` reading `job_info["schedule_time"]` — whose
absence raises `KeyError`, and whose value the `schedule` library may
reject inside `schedule_workflow` (both raises modelled as `none`,
propagated by `load_schedule`). -/
def loadJobs (now : DateTime) : List (String × SavedJob) → Registry → Option Registry
  | [], reg => some reg
  | (nm, sj) :: rest, reg =>
    match sj.interval_minutes with
    | some k =>
      loadJobs now rest (schedule_interval_workflow now reg sj.workflow k (some nm)).1
    | none =>
      match sj.schedule_time with
      | some st =>
        match schedule_workflow now reg sj.workflow st (some nm) sj.repeatFlag with
        | .ok out => loadJobs now rest out.1
        | .error _ => none
      | none => none

/-- Embedding of `load_schedule` (`workflow_scheduler.py` lines 249–283):
clear the
registry, then re-create every saved job through the fresh scheduling
operations (so `next_run` values are recomputed from `now`). -/
def load_schedule (now : DateTime) (data : List (String × SavedJob)) :
    Option Registry :=
  loadJobs now data []

/-- The trigger spec of a registry entry, as the spec describes it:
`interval_minutes` for interval jobs, `schedule_time`/`repeat` for
daily jobs. -/
def triggerOf (j : JobInfo) : Option Nat × Option String × Bool :=
  match j.interval_minutes with
  | some k => (some k, none, true)
  | none => (none, j.schedule_time, j.repeatFlag)

/-- A registry entry's trigger spec is well formed: interval jobs carry
their interval; daily jobs carry a time of day the `schedule` library
accepted when the entry was created.  This is an invariant of every
registry the system can produce (`schedule_workflow` installs an entry
only after the library accepted the time). -/
def jobTriggerOk (j : JobInfo) : Bool :=
  match j.interval_minutes with
  | some _ => true
  | none =>
    match j.schedule_time with
    | some st => schedule_at_accepts st
    | none => false

/-- The same trigger well-formedness on a serialized job. -/
def savedJobOk (sj : SavedJob) : Bool :=
  match sj.interval_minutes with
  | some _ => true
  | none =>
    match sj.schedule_time with
    | some st => schedule_at_accepts st
    | none => false

/-! ## Helper notions for the proofs -/

/-- Whether executing a step succeeds.  A step's outcome does not depend
on the `results` state (`extracted_data` only influences the default
extraction key, never success), so it is a function of the step, the
timestamp and the engine alone. -/
def stepOk (eng : EngineFun) (ts : String) (s : Step) : Bool :=
  match dispatch_call ts s with
  | .error _ => false
  | .ok c =>
    match eng c with
    | .error _ => false
    | .ok _ => true

/-- The exception message a failing step raises (meaningless for a
succeeding step). -/
def stepErr (eng : EngineFun) (ts : String) (s : Step) : String :=
  match dispatch_call ts s with
  | .error e => e
  | .ok c =>
    match eng c with
    | .error e => e
    | .ok _ => ""

/-- A failing step raises with message `stepErr …`, independently of the
current results state. -/
theorem execute_step_eq_error {eng : EngineFun} {ts : String} {s : Step}
    (h : stepOk eng ts s = false) (res : RunResult) :
    execute_step eng ts s res = .error (stepErr eng ts s) := by
  unfold stepOk at h
  cases hd : dispatch_call ts s with
  | error e => simp [execute_step, stepErr, hd]
  | ok c =>
    rw [hd] at h
    cases he : eng c with
    | error e => simp [execute_step, stepErr, hd, he]
    | ok ret => simp [he] at h

/-- A succeeding step returns an updated results state that keeps
`workflow_name`, `steps_executed`, `total_steps`, `success` and
`errors` unchanged (only `extracted_data` and `screenshots` may grow). -/
theorem execute_step_eq_ok {eng : EngineFun} {ts : String} {s : Step}
    (h : stepOk eng ts s = true) (res : RunResult) :
    ∃ res2, execute_step eng ts s res = .ok res2 ∧
      res2.workflow_name = res.workflow_name ∧
      res2.steps_executed = res.steps_executed ∧
      res2.total_steps = res.total_steps ∧
      res2.success = res.success ∧
      res2.errors = res.errors := by
  unfold stepOk at h
  cases hd : dispatch_call ts s with
  | error e => rw [hd] at h; simp at h
  | ok c =>
    rw [hd] at h
    cases he : eng c with
    | error e => simp [he] at h
    | ok ret =>
      cases c with
      | navigate u =>
        exact ⟨res, by simp [execute_step, hd, he], rfl, rfl, rfl, rfl, rfl⟩
      | click a b =>
        exact ⟨res, by simp [execute_step, hd, he], rfl, rfl, rfl, rfl, rfl⟩
      | typeText a b c2 =>
        exact ⟨res, by simp [execute_step, hd, he], rfl, rfl, rfl, rfl, rfl⟩
      | waitFor a t b =>
        exact ⟨res, by simp [execute_step, hd, he], rfl, rfl, rfl, rfl, rfl⟩
      | getText a b =>
        exact ⟨{ res with
            extracted_data := insertAssoc res.extracted_data
              (s.key.getD ("text_" ++ toString res.extracted_data.length)) ret },
          by simp [execute_step, hd, he], rfl, rfl, rfl, rfl, rfl⟩
      | screenshot p =>
        exact ⟨{ res with screenshots := res.screenshots ++ [p] },
          by simp [execute_step, hd, he], rfl, rfl, rfl, rfl, rfl⟩

/-- Antisymmetry of the lexicographic datetime order. -/
theorem dtLe_antisymm {a b : DateTime} (h1 : dtLe a b = true)
    (h2 : dtLe b a = true) : a = b := by
  rcases a with ⟨ad, ah, am, asec⟩
  rcases b with ⟨bd, bh, bm, bsec⟩
  simp only [dtLe, decide_eq_true_eq] at h1 h2
  simp only [DateTime.mk.injEq]
  omega

/-- A strictly earlier instant is in particular `≤`. -/
theorem dtLt_le {a b : DateTime} (h : dtLt a b = true) : dtLe a b = true := by
  unfold dtLt at h
  exact (Bool.and_eq_true ..).mp h |>.1

/-- Strict order one way refutes `≤` the other way. -/
theorem dtLt_not_le {a b : DateTime} (h : dtLt a b = true) :
    dtLe b a = false := by
  have h1 := dtLt_le h
  have h2 : a ≠ b := by
    unfold dtLt at h
    have := (Bool.and_eq_true ..).mp h |>.2
    simpa using this
  cases h3 : dtLe b a with
  | false => rfl
  | true => exact absurd (dtLe_antisymm h1 h3) h2

/-- Dict lookup after dict assignment of the same key. -/
theorem lookupJob_insert_self (r : Registry) (n : String) (v : JobInfo) :
    lookupJob (insertJob r n v) n = some v := by
  induction r with
  | nil => simp [insertJob, lookupJob]
  | cons p rest ih =>
    by_cases hk : p.1 = n
    · simp [insertJob, hk, lookupJob]
    · simp [insertJob, hk, lookupJob, ih]

/-- Dict lookup after an in-place update of the same key. -/
theorem lookupJob_update_self (r : Registry) (n : String) (f : JobInfo → JobInfo) :
    lookupJob (updateJob r n f) n = (lookupJob r n).map f := by
  induction r with
  | nil => simp [updateJob, lookupJob]
  | cons p rest ih =>
    by_cases hk : p.1 = n
    · simp [updateJob, hk, lookupJob]
    · simp [updateJob, hk, lookupJob, ih]

/-- Assignment of an absent key appends the binding. -/
theorem insertJob_of_not_contains {r : Registry} {n : String}
    (h : containsName r n = false) (v : JobInfo) :
    insertJob r n v = r ++ [(n, v)] := by
  induction r with
  | nil => rfl
  | cons p rest ih =>
    unfold containsName lookupJob at h
    by_cases hk : p.1 = n
    · simp [hk] at h
    · simp only [hk, if_false] at h
      simp [insertJob, hk, ih h]

/-- Assignment of a present key preserves the number of entries. -/
theorem insertJob_length_of_contains {r : Registry} {n : String}
    (h : containsName r n = true) (v : JobInfo) :
    (insertJob r n v).length = r.length := by
  induction r with
  | nil => simp [containsName, lookupJob] at h
  | cons p rest ih =>
    unfold containsName lookupJob at h
    by_cases hk : p.1 = n
    · simp [insertJob, hk]
    · simp only [hk, if_false] at h
      simp [insertJob, hk, ih h]

/-- Deleting an absent key is the identity. -/
theorem eraseJob_of_not_contains {r : Registry} {n : String}
    (h : containsName r n = false) : eraseJob r n = r := by
  induction r with
  | nil => rfl
  | cons p rest ih =>
    unfold containsName lookupJob at h
    by_cases hk : p.1 = n
    · simp [hk] at h
    · simp only [hk, if_false] at h
      simp [eraseJob, hk, ih h]

/-- Lookup distributes over list append of registries. -/
theorem lookupJob_append (r1 r2 : Registry) (n : String) :
    lookupJob (r1 ++ r2) n =
      match lookupJob r1 n with
      | some v => some v
      | none => lookupJob r2 n := by
  induction r1 with
  | nil => simp [lookupJob]
  | cons p rest ih =>
    by_cases hk : p.1 = n
    · simp [lookupJob, hk]
    · simp [lookupJob, hk, ih]

/-- Unfolding equation for one iteration of the step loop. -/
theorem runSteps_cons (eng : EngineFun) (clock : Nat → String) (i : Nat)
    (s : Step) (rest : List Step) (res : RunResult) :
    runSteps eng clock i (s :: rest) res =
      match execute_step eng (clock i) s res with
      | .ok res2 => runSteps eng clock (i + 1) rest
          { res2 with steps_executed := res2.steps_executed + 1 }
      | .error e =>
        { res with
          success := false
          errors := res.errors ++ ["Step " ++ toString i ++ " failed: " ++ e] } := rfl

/-- Fail-fast behaviour of the step loop: if the first `pre.length`
steps succeed (at their respective 1-based indices and timestamps) and
the next step fails, the loop executes exactly the prefix, records one
error for the failing step, clears `success`, and never looks at the
remaining steps. -/
theorem runSteps_firstFail (eng : EngineFun) (clock : Nat → String) :
    ∀ (pre : List Step) (i : Nat) (res : RunResult) (sk : Step) (post : List Step),
    (∀ j : Fin pre.length, stepOk eng (clock (i + j.val)) (pre.get j) = true) →
    stepOk eng (clock (i + pre.length)) sk = false →
    (runSteps eng clock i (pre ++ sk :: post) res).steps_executed =
        res.steps_executed + pre.length ∧
    (runSteps eng clock i (pre ++ sk :: post) res).success = false ∧
    (runSteps eng clock i (pre ++ sk :: post) res).errors =
        res.errors ++ ["Step " ++ toString (i + pre.length) ++ " failed: " ++
          stepErr eng (clock (i + pre.length)) sk] ∧
    runSteps eng clock i (pre ++ sk :: post) res =
      runSteps eng clock i (pre ++ [sk]) res := by
  intro pre
  induction pre with
  | nil =>
    intro i res sk post _ hk
    simp only [List.length_nil, Nat.add_zero] at hk ⊢
    have hfail := execute_step_eq_error hk res
    simp [List.nil_append, runSteps_cons, hfail]
  | cons s pre2 ih =>
    intro i res sk post hpre hk
    have h0 : stepOk eng (clock i) s = true := by
      have := hpre ⟨0, by simp⟩
      simpa using this
    obtain ⟨res2, hstep, hwn, hse, hts, hsu, herr⟩ := execute_step_eq_ok h0 res
    have hpre2 : ∀ j : Fin pre2.length,
        stepOk eng (clock (i + 1 + j.val)) (pre2.get j) = true := by
      intro j
      have := hpre ⟨j.val + 1, by simp [Nat.succ_lt_succ j.isLt]⟩
      have harith : i + (j.val + 1) = i + 1 + j.val := by omega
      simpa [harith] using this
    have hk2 : stepOk eng (clock (i + 1 + pre2.length)) sk = false := by
      have harith : i + (s :: pre2).length = i + 1 + pre2.length := by
        simp; omega
      rwa [harith] at hk
    have ihres := ih (i + 1)
      { res2 with steps_executed := res2.steps_executed + 1 } sk post hpre2 hk2
    obtain ⟨ih1, ih2, ih3, ih4⟩ := ihres
    have hunfoldL :
        runSteps eng clock i ((s :: pre2) ++ sk :: post) res =
          runSteps eng clock (i + 1) (pre2 ++ sk :: post)
            { res2 with steps_executed := res2.steps_executed + 1 } := by
      simp only [List.cons_append]
      rw [runSteps_cons, hstep]
    have hunfoldR :
        runSteps eng clock i ((s :: pre2) ++ [sk]) res =
          runSteps eng clock (i + 1) (pre2 ++ [sk])
            { res2 with steps_executed := res2.steps_executed + 1 } := by
      simp only [List.cons_append]
      rw [runSteps_cons, hstep]
    have harith2 : i + (s :: pre2).length = i + 1 + pre2.length := by
      simp; omega
    refine ⟨?_, ?_, ?_, ?_⟩
    · rw [hunfoldL, ih1]
      simp [hse]
      omega
    · rw [hunfoldL, ih2]
    · rw [hunfoldL, ih3]
      simp only [List.length_cons]
      have h5 : i + (pre2.length + 1) = i + 1 + pre2.length := by omega
      rw [h5]
      simp [herr]
    · rw [hunfoldL, ih4, hunfoldR]

/-! ## Claim theorems -/

/-- C1: for every workflow whose step `k` (1-indexed) is the first to
fail while steps `1..k-1` succeed, `execute_workflow` returns a
RunResult with `steps_executed = k - 1`, `success = false` and exactly
one recorded error, and no step after `k` is attempted: the run computes
the same result as the run of the workflow truncated right after the
failing step. -/
theorem c1_fail_fast (eng : EngineFun) (clock : Nat → String)
    (nm ds : Option String) (pre : List Step) (sk : Step) (post : List Step)
    (hpre : ∀ j : Fin pre.length, stepOk eng (clock (1 + j.val)) (pre.get j) = true)
    (hk : stepOk eng (clock (1 + pre.length)) sk = false) :
    ∃ r, execute_workflow (.started eng) clock
        ⟨nm, ds, some (pre ++ sk :: post)⟩ = .ok r ∧
      r.steps_executed = pre.length ∧
      r.success = false ∧
      r.errors.length = 1 ∧
      r = runSteps eng clock 1 (pre ++ [sk])
        (init_results ⟨nm, ds, some (pre ++ sk :: post)⟩) := by
  obtain ⟨h1, h2, h3, h4⟩ :=
    runSteps_firstFail eng clock pre 1
      (init_results ⟨nm, ds, some (pre ++ sk :: post)⟩) sk post hpre hk
  refine ⟨runSteps eng clock 1 (pre ++ sk :: post)
      (init_results ⟨nm, ds, some (pre ++ sk :: post)⟩), rfl, ?_, h2, ?_, h4⟩
  · rw [h1]; simp [init_results]
  · rw [h3]; simp [init_results]

/-- Concrete engine for the C1 witness: clicks fail, all else succeeds. -/
def engC1 : EngineFun := fun c =>
  match c with
  | .click _ _ => .error "element not found"
  | _ => .ok ""

/-- Constant step clock used by concrete witnesses. -/
def clockC : Nat → String := fun n => toString n

/-- Successful prefix for the C1 witness. -/
def preC1 : List Step :=
  [{ action := some "navigate", url := some "https://example.com" }]

/-- Failing step for the C1 witness. -/
def skC1 : Step := { action := some "click", selector := some "#btn" }

/-- Never-reached suffix for the C1 witness. -/
def postC1 : List Step := [{ action := some "screenshot" }]

/-- Witness for C1 at a concrete three-step workflow whose second step
fails. -/
theorem c1_fail_fast_witness :
    ∃ r, execute_workflow (.started engC1) clockC
        ⟨some "T", some "d", some (preC1 ++ skC1 :: postC1)⟩ = .ok r ∧
      r.steps_executed = preC1.length ∧
      r.success = false ∧
      r.errors.length = 1 ∧
      r = runSteps engC1 clockC 1 (preC1 ++ [skC1])
        (init_results ⟨some "T", some "d", some (preC1 ++ skC1 :: postC1)⟩) :=
  c1_fail_fast engC1 clockC (some "T") (some "d") preC1 skC1 postC1
    (by decide) (by decide)

/-- C2 counterexample: the claim asserts that every session-acquisition
failure is raised to the caller rather than captured in a failed
RunResult, and that what is raised is the session error itself.  At a
concrete workflow: a `failClean` session failure (every selenium
failure, and every playwright failure after `start()` assigned
`self.playwright`, e.g. a failed `launch`) returns normally with a
failed RunResult carrying the error — nothing is raised; and in the one
mode that does raise (`failEarly`), the raised error is the teardown
`AttributeError`, not the original session error `"boom"`. -/
theorem c2_counterexample :
    execute_workflow (.failClean "boom") clockC
        ⟨some "W", some "d", some [{ action := some "screenshot" }]⟩ =
      .ok
        { workflow_name := "W"
          steps_executed := 0
          total_steps := 1
          success := false
          errors := ["Workflow execution failed: boom"]
          screenshots := []
          extracted_data := [] } ∧
    execute_workflow (.failEarly "boom") clockC
        ⟨some "W", some "d", some [{ action := some "screenshot" }]⟩ =
      .error attrErr ∧
    attrErr ≠ "boom" := by
  refine ⟨rfl, rfl, by decide⟩

/-- C2 amended: a session-acquisition failure is raised to the caller
only when `async_playwright().start()` itself failed — and what is then
raised is the `AttributeError` from the `finally`-block
`close_browser()` (`self.playwright` was never assigned), not the
original session error.  In every other session-acquisition failure
mode the exception is caught and, because the `return results` inside
the `finally` block suppresses it, the caller receives a RunResult with
`steps_executed = 0`, `success = false` and the single error
`"Workflow execution failed: <e>"`. -/
theorem c2_amended (e : String) (clock : Nat → String) (wf : Workflow) :
    execute_workflow (.failClean e) clock wf =
      .ok
        { init_results wf with
          success := false
          errors := ["Workflow execution failed: " ++ e] } ∧
    execute_workflow (.failEarly e) clock wf = .error attrErr :=
  ⟨rfl, rfl⟩

/-- C3: the claim says a `type` step carrying a selector but no `text`
is rejected by admission validation.  In `validate_workflow`, the branch
`elif step["action"] == "type"` that checks for `text` is dead code: the
action `"type"` already matches the preceding
`elif step["action"] in ["click", "type", "wait", "get_text"]` branch,
which only requires `selector`.  The workflow below is therefore
accepted (`validate_workflow = true`), although the step executor
rejects the very same step at run time — the code contradicts its own
validation intent.  -/
theorem c3_type_without_text_accepted :
    validate_workflow
        ⟨some "W", some "d",
          some [{ action := some "type", selector := some "input#user" }]⟩ = true ∧
    (dispatch_call "T" { action := some "type", selector := some "input#user" } =
      .error "Type action requires 'selector' and 'text' parameters") := by
  exact ⟨by decide, by rfl⟩

/-- Trivial engine (every capability call succeeds) for scheduler
counterexamples. -/
def engOk : EngineFun := fun _ => .ok ""

/-- Empty concrete workflow used in scheduler counterexamples. -/
def wfT : Workflow := ⟨some "W", some "d", some []⟩

/-- A concrete registry entry: daily job at 09:00, created at 08:00 of
day 0, with next run 09:00 of day 0. -/
def jobJ : JobInfo :=
  { workflow := wfT
    schedule_time := some "09:00"
    interval_minutes := none
    repeatFlag := true
    created_at := ⟨0, 8, 0, 0⟩
    last_run := none
    next_run := ⟨0, 9, 0, 0⟩
    last_result := none
    last_error := none }

/-- C4 counterexample: the claim requires a freshly computed next-run
timestamp after a dispatched run completes.  Running job `"j"` at 10:00
of day 0 leaves `next_run` at 09:00 of day 0, while a fresh computation
would give 09:00 of day 1: `_execute_scheduled_workflow` never touches
`next_run`. -/
theorem c4_next_run_not_recomputed :
    (lookupJob
        (execute_scheduled_workflow (.started engOk) clockC (.ok ())
          ⟨0, 10, 0, 0⟩ [("j", jobJ)] wfT "j") "j").map JobInfo.next_run =
      some ⟨0, 9, 0, 0⟩ ∧
    get_next_run_time "09:00" ⟨0, 10, 0, 0⟩ = ⟨1, 9, 0, 0⟩ ∧
    (⟨0, 9, 0, 0⟩ : DateTime) ≠ ⟨1, 9, 0, 0⟩ := by
  refine ⟨by decide, by decide, by decide⟩

/-- C4 amended: the registry entry is updated once per dispatch, but
not as the claim says.  When the executor returns a results object —
which it does for every step-level failure and for every
session-acquisition failure except the early-playwright teardown mode —
a registered job's entry gets `last_run` set to the completion instant
and `last_result` set to the run's RunResult, success and failure
alike; `last_error` is additionally set only when persisting the
results file fails.  When the executor itself raises (the early
teardown mode), only `last_error` is set and `last_run`/`last_result`
are untouched.  On no path is `next_run` recomputed: it is always left
unchanged. -/
theorem c4_amended (start : StartOutcome) (clock : Nat → String)
    (saveOutcome : Except String Unit) (now : DateTime) (jobs : Registry)
    (wf : Workflow) (nm : String) (j : JobInfo)
    (hj : lookupJob jobs nm = some j) :
    ∃ j2,
      lookupJob
          (execute_scheduled_workflow start clock saveOutcome now jobs wf nm)
          nm = some j2 ∧
      j2.next_run = j.next_run ∧
      (∀ r, execute_workflow start clock wf = .ok r →
        j2.last_run = some now ∧
        j2.last_result = some r ∧
        j2.last_error =
          (match saveOutcome with
          | .ok _ => j.last_error
          | .error e2 => some e2)) ∧
      (∀ e2, execute_workflow start clock wf = .error e2 →
        j2.last_run = j.last_run ∧
        j2.last_result = j.last_result ∧
        j2.last_error = some e2) := by
  have hmem : containsName jobs nm = true := by
    unfold containsName
    rw [hj]
    rfl
  cases hw : execute_workflow start clock wf with
  | error e =>
    have hl : lookupJob
        (updateJob jobs nm fun j3 => { j3 with last_error := some e }) nm =
        some { j with last_error := some e } := by
      rw [lookupJob_update_self, hj]
      rfl
    refine ⟨{ j with last_error := some e }, ?_, rfl, ?_, ?_⟩
    · unfold execute_scheduled_workflow
      rw [hw]
      simp only [if_pos hmem]
      exact hl
    · intro r hr
      exact Except.noConfusion hr
    · intro e2 he2
      injection he2 with hee
      subst hee
      exact ⟨rfl, rfl, rfl⟩
  | ok r =>
    have hl1 : lookupJob
        (updateJob jobs nm fun j3 =>
          { j3 with
            last_run := some now
            last_result := some r }) nm =
        some
          { j with
            last_run := some now
            last_result := some r } := by
      rw [lookupJob_update_self, hj]
      rfl
    cases saveOutcome with
    | ok u =>
      refine ⟨{ j with last_run := some now, last_result := some r },
        ?_, rfl, ?_, ?_⟩
      · unfold execute_scheduled_workflow
        rw [hw]
        simp only [if_pos hmem]
        exact hl1
      · intro r2 hr2
        injection hr2 with hre
        subst hre
        exact ⟨rfl, rfl, rfl⟩
      · intro e2 he2
        exact Except.noConfusion he2
    | error es =>
      have hmem2 : containsName
          (updateJob jobs nm fun j3 =>
            { j3 with
              last_run := some now
              last_result := some r }) nm = true := by
        unfold containsName
        rw [hl1]
        rfl
      have hl2 : lookupJob
          (updateJob
            (updateJob jobs nm fun j3 =>
              { j3 with
                last_run := some now
                last_result := some r })
            nm fun j3 => { j3 with last_error := some es }) nm =
          some
            { j with
              last_run := some now
              last_result := some r
              last_error := some es } := by
        rw [lookupJob_update_self, hl1]
        rfl
      refine ⟨{ j with
          last_run := some now
          last_result := some r
          last_error := some es }, ?_, rfl, ?_, ?_⟩
      · unfold execute_scheduled_workflow
        rw [hw]
        simp only [if_pos hmem, if_pos hmem2]
        exact hl2
      · intro r2 hr2
        injection hr2 with hre
        subst hre
        exact ⟨rfl, rfl, rfl⟩
      · intro e2 he2
        exact Except.noConfusion he2

/-- Witness for C4 amended: a completed run on a concrete one-job
registry. -/
theorem c4_amended_witness :
    ∃ j2,
      lookupJob
          (execute_scheduled_workflow (.started engOk) clockC (.ok ())
            ⟨0, 10, 0, 0⟩ [("j", jobJ)] wfT "j") "j" = some j2 ∧
      j2.next_run = jobJ.next_run ∧
      (∀ r, execute_workflow (.started engOk) clockC wfT = .ok r →
        j2.last_run = some ⟨0, 10, 0, 0⟩ ∧
        j2.last_result = some r ∧
        j2.last_error =
          (match (.ok () : Except String Unit) with
          | .ok _ => jobJ.last_error
          | .error e2 => some e2)) ∧
      (∀ e2, execute_workflow (.started engOk) clockC wfT = .error e2 →
        j2.last_run = jobJ.last_run ∧
        j2.last_result = jobJ.last_result ∧
        j2.last_error = some e2) :=
  c4_amended (.started engOk) clockC (.ok ()) ⟨0, 10, 0, 0⟩ [("j", jobJ)] wfT
    "j" jobJ (by decide)

/-- The fresh entry that re-scheduling job `"j"` at 10:30 of day 0
installs. -/
def jobJnew : JobInfo :=
  { workflow := wfT
    schedule_time := some "10:30"
    interval_minutes := none
    repeatFlag := false
    created_at := ⟨0, 8, 0, 0⟩
    last_run := none
    next_run := ⟨0, 10, 30, 0⟩
    last_result := none
    last_error := none }

/-- C5 counterexample: the claim requires scheduling under an
already-present job name to fail with a `SchedulingError` and leave the
registry unchanged.  Scheduling `"j"` again, with a (library-accepted)
different time of day, succeeds and silently replaces the existing
entry, so the registry is changed and no error occurs. -/
theorem c5_duplicate_overwrites :
    schedule_workflow ⟨0, 8, 0, 0⟩ [("j", jobJ)] wfT "10:30" (some "j")
        false = .ok ([("j", jobJnew)], "j") ∧
    ([("j", jobJnew)] : Registry) ≠ [("j", jobJ)] := by
  refine ⟨rfl, by decide⟩

/-- With an explicitly given non-empty job name and a time of day the
`schedule` library accepts, `schedule_workflow` installs exactly one
fresh entry under that name and returns the name. -/
theorem schedule_workflow_named (now : DateTime) (jobs : Registry)
    (wf : Workflow) (st : String) (nm : String) (rpt : Bool) (hnm : nm ≠ "")
    (hacc : schedule_at_accepts st = true) :
    schedule_workflow now jobs wf st (some nm) rpt =
      .ok (insertJob jobs nm
        { workflow := wf
          schedule_time := some st
          interval_minutes := none
          repeatFlag := rpt
          created_at := now
          last_run := none
          next_run := get_next_run_time st now
          last_result := none
          last_error := none }, nm) := by
  have htr : truthy (some nm) = true := by
    unfold truthy
    simpa using hnm
  simp [schedule_workflow, htr, hacc]

/-- C5 amended: for a scheduling request whose time of day the
`schedule` library accepts, an already-present job name does not cause
a failure: the operation succeeds, returns that same name, and replaces
the existing entry with a fresh entry for the new workflow and trigger,
leaving the job count unchanged.  A scheduling request fails only for a
time string the library rejects — and that abort happens before the
registry is touched, duplicate name or not. -/
theorem c5_amended (now : DateTime) (jobs : Registry) (wf : Workflow)
    (st : String) (nm : String) (rpt : Bool) (hnm : nm ≠ "")
    (hmem : containsName jobs nm = true) :
    (schedule_at_accepts st = true →
      ∃ reg2, schedule_workflow now jobs wf st (some nm) rpt =
          .ok (reg2, nm) ∧
        reg2.length = jobs.length ∧
        lookupJob reg2 nm =
          some
            { workflow := wf
              schedule_time := some st
              interval_minutes := none
              repeatFlag := rpt
              created_at := now
              last_run := none
              next_run := get_next_run_time st now
              last_result := none
              last_error := none }) ∧
    (schedule_at_accepts st = false →
      schedule_workflow now jobs wf st (some nm) rpt =
        .error ("Invalid time format for a daily job: " ++ st)) := by
  constructor
  · intro hacc
    exact ⟨_, schedule_workflow_named now jobs wf st nm rpt hnm hacc,
      insertJob_length_of_contains hmem _, lookupJob_insert_self ..⟩
  · intro hbad
    simp [schedule_workflow, hbad]

/-- Witness for C5 amended: two applications on a concrete one-job
registry — re-scheduling `"j"` with the accepted time 10:30, and with
the rejected string `"banana"`. -/
theorem c5_amended_witness :
    ((schedule_at_accepts "10:30" = true →
      ∃ reg2, schedule_workflow ⟨0, 8, 0, 0⟩ [("j", jobJ)] wfT "10:30"
          (some "j") false = .ok (reg2, "j") ∧
        reg2.length = ([("j", jobJ)] : Registry).length ∧
        lookupJob reg2 "j" =
          some
            { workflow := wfT
              schedule_time := some "10:30"
              interval_minutes := none
              repeatFlag := false
              created_at := ⟨0, 8, 0, 0⟩
              last_run := none
              next_run := get_next_run_time "10:30" ⟨0, 8, 0, 0⟩
              last_result := none
              last_error := none }) ∧
    (schedule_at_accepts "10:30" = false →
      schedule_workflow ⟨0, 8, 0, 0⟩ [("j", jobJ)] wfT "10:30" (some "j")
          false =
        .error ("Invalid time format for a daily job: " ++ "10:30"))) ∧
    ((schedule_at_accepts "banana" = true →
      ∃ reg2, schedule_workflow ⟨0, 8, 0, 0⟩ [("j", jobJ)] wfT "banana"
          (some "j") false = .ok (reg2, "j") ∧
        reg2.length = ([("j", jobJ)] : Registry).length ∧
        lookupJob reg2 "j" =
          some
            { workflow := wfT
              schedule_time := some "banana"
              interval_minutes := none
              repeatFlag := false
              created_at := ⟨0, 8, 0, 0⟩
              last_run := none
              next_run := get_next_run_time "banana" ⟨0, 8, 0, 0⟩
              last_result := none
              last_error := none }) ∧
    (schedule_at_accepts "banana" = false →
      schedule_workflow ⟨0, 8, 0, 0⟩ [("j", jobJ)] wfT "banana" (some "j")
          false =
        .error ("Invalid time format for a daily job: " ++ "banana"))) :=
  ⟨c5_amended ⟨0, 8, 0, 0⟩ [("j", jobJ)] wfT "10:30" "j" false (by decide)
      (by decide),
    c5_amended ⟨0, 8, 0, 0⟩ [("j", jobJ)] wfT "banana" "j" false (by decide)
      (by decide)⟩

/-- C6 counterexample: the claim requires `remove_job` of an absent name
to return `false`.  On the empty registry, removing `"nonexistent"`
returns `true` (the function always returns `True`: `schedule.clear`
never raises and the dict delete is membership-guarded). -/
theorem c6_absent_returns_true :
    remove_job [] "nonexistent" = ([], true) := by
  rfl

/-- C6 amended: for every name not present in the registry, `remove_job`
returns `true` (not `false`), never raises, and leaves the registry —
and hence its job count — unchanged. -/
theorem c6_amended (jobs : Registry) (nm : String)
    (h : containsName jobs nm = false) :
    remove_job jobs nm = (jobs, true) := by
  unfold remove_job
  rw [eraseJob_of_not_contains h]

/-- Witness for C6 amended at a concrete registry not containing the
removed name. -/
theorem c6_amended_witness :
    remove_job [("j", jobJ)] "nonexistent" = ([("j", jobJ)], true) :=
  c6_amended [("j", jobJ)] "nonexistent" (by decide)

/-- C7: scheduling a daily job at a valid time of day `h:m` succeeds
and computes the new entry's next-run as tomorrow at `h:m` when the
current instant is strictly after `h:m` today, and as today at `h:m`
when it is strictly before `h:m` today. -/
theorem c7_daily_next_run (now : DateTime) (h m : Nat) (st : String)
    (jobs : Registry) (wf : Workflow) (nm : String) (rpt : Bool)
    (hp : parse_hm st = some (h, m)) (hacc : schedule_at_accepts st = true)
    (hnm : nm ≠ "") :
    ∃ reg2, schedule_workflow now jobs wf st (some nm) rpt = .ok (reg2, nm) ∧
      (dtLt ⟨now.day, h, m, 0⟩ now = true →
        (lookupJob reg2 nm).map JobInfo.next_run =
          some ⟨now.day + 1, h, m, 0⟩) ∧
      (dtLt now ⟨now.day, h, m, 0⟩ = true →
        (lookupJob reg2 nm).map JobInfo.next_run =
          some ⟨now.day, h, m, 0⟩) := by
  refine ⟨_, schedule_workflow_named now jobs wf st nm rpt hnm hacc, ?_, ?_⟩
  · intro hafter
    rw [lookupJob_insert_self]
    show some (get_next_run_time st now) = _
    unfold get_next_run_time
    rw [hp]
    have hle : dtLe ⟨now.day, h, m, 0⟩ now = true := dtLt_le hafter
    simp only [hle, if_true]
    rfl
  · intro hbefore
    rw [lookupJob_insert_self]
    show some (get_next_run_time st now) = _
    unfold get_next_run_time
    rw [hp]
    have hle : dtLe ⟨now.day, h, m, 0⟩ now = false := dtLt_not_le hbefore
    simp only [hle, if_false]
    rfl

/-- Witness for C7: the 09:00 job scheduled at 10:30 runs tomorrow at
09:00; scheduled at 08:00 it runs today at 09:00 (two applications of
the theorem at the two wall-clock instants, discharging each premise). -/
theorem c7_daily_next_run_witness :
    (∃ reg2, schedule_workflow ⟨0, 10, 30, 0⟩ [] wfT "09:00" (some "j")
        true = .ok (reg2, "j") ∧
      (dtLt ⟨0, 9, 0, 0⟩ ⟨0, 10, 30, 0⟩ = true →
        (lookupJob reg2 "j").map JobInfo.next_run = some ⟨1, 9, 0, 0⟩) ∧
      (dtLt ⟨0, 10, 30, 0⟩ ⟨0, 9, 0, 0⟩ = true →
        (lookupJob reg2 "j").map JobInfo.next_run = some ⟨0, 9, 0, 0⟩)) ∧
    (∃ reg2, schedule_workflow ⟨0, 8, 0, 0⟩ [] wfT "09:00" (some "j")
        true = .ok (reg2, "j") ∧
      (dtLt ⟨0, 9, 0, 0⟩ ⟨0, 8, 0, 0⟩ = true →
        (lookupJob reg2 "j").map JobInfo.next_run = some ⟨1, 9, 0, 0⟩) ∧
      (dtLt ⟨0, 8, 0, 0⟩ ⟨0, 9, 0, 0⟩ = true →
        (lookupJob reg2 "j").map JobInfo.next_run = some ⟨0, 9, 0, 0⟩)) :=
  ⟨c7_daily_next_run ⟨0, 10, 30, 0⟩ 9 0 "09:00" [] wfT "j" true (by decide)
      (by decide) (by decide),
    c7_daily_next_run ⟨0, 8, 0, 0⟩ 9 0 "09:00" [] wfT "j" true (by decide)
      (by decide) (by decide)⟩

/-- C9: for click, type, wait and get_text steps that omit
`selector_type`, the Step Executor dispatches the capability call with
selector type `"css"`; for wait steps that also omit `timeout`, the
timeout is 10.  (`url`, `key` and `path` are irrelevant to these
actions and quantified arbitrarily; the selector, and for type the
text, must be truthy or the step fails before dispatch.) -/
theorem c9_dispatch_defaults (ts sel txt : String) (u k p : Option String)
    (to2 : Option Nat) (hsel : sel ≠ "") (htxt : txt ≠ "") :
    dispatch_call ts
        { action := some "click", url := u, selector := some sel
          selector_type := none, text := none, timeout := to2, key := k
          path := p } = .ok (.click sel "css") ∧
    dispatch_call ts
        { action := some "type", url := u, selector := some sel
          selector_type := none, text := some txt, timeout := to2, key := k
          path := p } = .ok (.typeText sel txt "css") ∧
    dispatch_call ts
        { action := some "wait", url := u, selector := some sel
          selector_type := none, text := none, timeout := none, key := k
          path := p } = .ok (.waitFor sel 10 "css") ∧
    dispatch_call ts
        { action := some "get_text", url := u, selector := some sel
          selector_type := none, text := none, timeout := to2, key := k
          path := p } = .ok (.getText sel "css") := by
  refine ⟨?_, ?_, ?_, ?_⟩ <;>
    simp [dispatch_call, truthy, hsel, htxt]

/-- Witness for C9 at concrete steps. -/
theorem c9_dispatch_defaults_witness :
    dispatch_call "T"
        { action := some "click", url := none, selector := some "#a"
          selector_type := none, text := none, timeout := none, key := none
          path := none } = .ok (.click "#a" "css") ∧
    dispatch_call "T"
        { action := some "type", url := none, selector := some "#a"
          selector_type := none, text := some "hi", timeout := none
          key := none, path := none } = .ok (.typeText "#a" "hi" "css") ∧
    dispatch_call "T"
        { action := some "wait", url := none, selector := some "#a"
          selector_type := none, text := none, timeout := none, key := none
          path := none } = .ok (.waitFor "#a" 10 "css") ∧
    dispatch_call "T"
        { action := some "get_text", url := none, selector := some "#a"
          selector_type := none, text := none, timeout := none, key := none
          path := none } = .ok (.getText "#a" "css") :=
  c9_dispatch_defaults "T" "#a" "hi" none none none none (by decide) (by decide)

/-- A type step carrying an empty `text` value next to a non-empty
selector. -/
def stepTypeEmpty (sel : String) (st : Option String) : Step :=
  { action := some "type"
    selector := some sel
    text := some ""
    selector_type := st }

/-- C10: a type step whose `text` parameter is present but empty (and
whose selector is non-empty) fails with the missing-parameter
`ValueError` regardless of the engine — the Python truthiness check
`if not selector or not text` treats `""` as absent, before any
capability call — and a run of a workflow containing it as its only
step therefore returns normally and records the single step failure. -/
theorem c10_empty_text_fails (eng : EngineFun) (clock : Nat → String)
    (sel : String) (st : Option String) (res : RunResult)
    (nm ds : Option String) (hsel : sel ≠ "") :
    execute_step eng (clock 1) (stepTypeEmpty sel st) res =
      .error "Type action requires 'selector' and 'text' parameters" ∧
    ∃ r, execute_workflow (.started eng) clock
        ⟨nm, ds, some [stepTypeEmpty sel st]⟩ = .ok r ∧
      r.success = false ∧
      r.errors =
        ["Step 1 failed: Type action requires 'selector' and 'text' parameters"] := by
  have hstep : ∀ r2 : RunResult, execute_step eng (clock 1)
      (stepTypeEmpty sel st) r2 =
      .error "Type action requires 'selector' and 'text' parameters" := by
    intro r2
    simp [execute_step, dispatch_call, stepTypeEmpty, truthy]
  refine ⟨hstep res,
    runSteps eng clock 1 [stepTypeEmpty sel st]
      (init_results ⟨nm, ds, some [stepTypeEmpty sel st]⟩), rfl, ?_, ?_⟩
  · rw [runSteps_cons, hstep]
  · rw [runSteps_cons, hstep]
    rfl

/-- Witness for C10 at a concrete step and workflow. -/
theorem c10_empty_text_fails_witness :
    execute_step engOk (clockC 1) (stepTypeEmpty "#a" none)
        (init_results wfT) =
      .error "Type action requires 'selector' and 'text' parameters" ∧
    ∃ r, execute_workflow (.started engOk) clockC
        ⟨some "W", some "d", some [stepTypeEmpty "#a" none]⟩ = .ok r ∧
      r.success = false ∧
      r.errors =
        ["Step 1 failed: Type action requires 'selector' and 'text' parameters"] :=
  c10_empty_text_fails engOk clockC "#a" none (init_results wfT)
    (some "W") (some "d") (by decide)

/-- Projection of a registry entry to its serialized form. -/
def savedOf (j : JobInfo) : SavedJob :=
  { workflow := j.workflow
    schedule_time := j.schedule_time
    interval_minutes := j.interval_minutes
    repeatFlag := j.repeatFlag }

/-- The entry `load_schedule` recreates from one saved job: interval
jobs go through `schedule_interval_workflow`, daily jobs through
`schedule_workflow`, so `next_run` is recomputed from `now` and the
bookkeeping fields are reset. -/
def rebuildJob (now : DateTime) (sj : SavedJob) : JobInfo :=
  match sj.interval_minutes with
  | some k =>
    { workflow := sj.workflow
      schedule_time := none
      interval_minutes := some k
      repeatFlag := true
      created_at := now
      last_run := none
      next_run := addMinutes now k
      last_result := none
      last_error := none }
  | none =>
    { workflow := sj.workflow
      schedule_time := sj.schedule_time
      interval_minutes := none
      repeatFlag := sj.repeatFlag
      created_at := now
      last_run := none
      next_run := get_next_run_time (sj.schedule_time.getD "") now
      last_result := none
      last_error := none }

/-- Membership distributes over registry append. -/
theorem containsName_append (r1 r2 : Registry) (n : String) :
    containsName (r1 ++ r2) n = (containsName r1 n || containsName r2 n) := by
  unfold containsName
  rw [lookupJob_append]
  cases lookupJob r1 n <;> simp

/-- With an explicitly given non-empty job name,
`schedule_interval_workflow` installs exactly one fresh entry under that
name and returns the name. -/
theorem schedule_interval_workflow_named (now : DateTime) (jobs : Registry)
    (wf : Workflow) (k : Nat) (nm : String) (hnm : nm ≠ "") :
    schedule_interval_workflow now jobs wf k (some nm) =
      (insertJob jobs nm
        { workflow := wf
          schedule_time := none
          interval_minutes := some k
          repeatFlag := true
          created_at := now
          last_run := none
          next_run := addMinutes now k
          last_result := none
          last_error := none }, nm) := by
  have htr : truthy (some nm) = true := by
    unfold truthy
    simpa using hnm
  unfold schedule_interval_workflow
  rw [if_pos htr]
  exact rfl

/-- A well-formed saved daily job carries a library-accepted time of
day. -/
theorem savedJobOk_daily {sj : SavedJob} (hint : sj.interval_minutes = none)
    (hok : savedJobOk sj = true) :
    ∃ st, sj.schedule_time = some st ∧ schedule_at_accepts st = true := by
  unfold savedJobOk at hok
  simp only [hint] at hok
  cases hst : sj.schedule_time with
  | none =>
    simp only [hst] at hok
    exact Bool.noConfusion hok
  | some st =>
    simp only [hst] at hok
    exact ⟨st, rfl, hok⟩

/-- The re-registration fold of `load_schedule` appends, to the
accumulated registry, the rebuilt entry of every saved job, provided
the saved names are distinct, non-empty, absent from the accumulator,
and every saved job carries a well-formed trigger spec. -/
theorem loadJobs_append (now : DateTime) :
    ∀ (data : List (String × SavedJob)) (acc : Registry),
    (data.map Prod.fst).Nodup →
    (∀ pr ∈ data, containsName acc pr.1 = false) →
    (∀ pr ∈ data, pr.1 ≠ "") →
    (∀ pr ∈ data, savedJobOk pr.2 = true) →
    loadJobs now data acc =
      some (acc ++ data.map fun pr => (pr.1, rebuildJob now pr.2)) := by
  intro data
  induction data with
  | nil =>
    intro acc _ _ _ _
    simp [loadJobs]
  | cons pr rest ih =>
    intro acc hnd hdisj hne hwfm
    obtain ⟨nm, sj⟩ := pr
    have hnm : nm ≠ "" := hne (nm, sj) (List.mem_cons_self _ _)
    have hnotacc : containsName acc nm = false :=
      hdisj (nm, sj) (List.mem_cons_self _ _)
    have hnd2 : (rest.map Prod.fst).Nodup := by
      simp only [List.map_cons, List.nodup_cons] at hnd
      exact hnd.2
    have hnmem : nm ∉ rest.map Prod.fst := by
      simp only [List.map_cons, List.nodup_cons] at hnd
      exact hnd.1
    have hsingle : ∀ pr2 ∈ rest, containsName [(nm, rebuildJob now sj)] pr2.1 = false := by
      intro pr2 hpr2
      have : pr2.1 ≠ nm := by
        intro hcontra
        exact hnmem (hcontra ▸ List.mem_map_of_mem Prod.fst hpr2)
      unfold containsName
      simp [lookupJob, this.symm]
    have hdisj2 : ∀ pr2 ∈ rest,
        containsName (acc ++ [(nm, rebuildJob now sj)]) pr2.1 = false := by
      intro pr2 hpr2
      rw [containsName_append, hdisj pr2 (List.mem_cons_of_mem _ hpr2),
        hsingle pr2 hpr2]
      rfl
    have hne2 : ∀ pr2 ∈ rest, pr2.1 ≠ "" := fun pr2 hpr2 =>
      hne pr2 (List.mem_cons_of_mem _ hpr2)
    have hwfm2 : ∀ pr2 ∈ rest, savedJobOk pr2.2 = true :=
      fun pr2 hpr2 => hwfm pr2 (List.mem_cons_of_mem _ hpr2)
    have ihres := ih (acc ++ [(nm, rebuildJob now sj)]) hnd2 hdisj2 hne2 hwfm2
    cases hint : sj.interval_minutes with
    | some k =>
      have hrb : rebuildJob now sj =
          { workflow := sj.workflow
            schedule_time := none
            interval_minutes := some k
            repeatFlag := true
            created_at := now
            last_run := none
            next_run := addMinutes now k
            last_result := none
            last_error := none } := by
        unfold rebuildJob
        rw [hint]
      simp only [loadJobs, hint]
      rw [schedule_interval_workflow_named now acc sj.workflow k nm hnm]
      simp only []
      rw [insertJob_of_not_contains hnotacc, ← hrb, ihres]
      simp [List.append_assoc]
    | none =>
      obtain ⟨st, hst, hacc⟩ :=
        savedJobOk_daily hint (hwfm (nm, sj) (List.mem_cons_self _ _))
      have hrb : rebuildJob now sj =
          { workflow := sj.workflow
            schedule_time := some st
            interval_minutes := none
            repeatFlag := sj.repeatFlag
            created_at := now
            last_run := none
            next_run := get_next_run_time st now
            last_result := none
            last_error := none } := by
        unfold rebuildJob
        rw [hint, hst]
        rfl
      simp only [loadJobs, hint, hst]
      rw [schedule_workflow_named now acc sj.workflow st nm sj.repeatFlag hnm
        hacc]
      simp only []
      rw [insertJob_of_not_contains hnotacc, ← hrb, ihres]
      simp [List.append_assoc]

/-- Stability of the trigger spec under serialization and rebuilding:
interval jobs keep `interval_minutes`; daily jobs keep `schedule_time`
and the `repeat` flag. -/
theorem triggerOf_rebuild (now : DateTime) (j : JobInfo) :
    triggerOf (rebuildJob now (savedOf j)) = triggerOf j := by
  cases hint : j.interval_minutes with
  | some k => simp [rebuildJob, savedOf, triggerOf, hint]
  | none => simp [rebuildJob, savedOf, triggerOf, hint]

/-- C8: saving the registry and loading the saved form reconstructs a
registry with the same job names (in the same order) and the same
trigger specs (`schedule_time`/`repeat` for daily jobs,
`interval_minutes` for interval jobs); the other fields — in particular
`next_run` — are recomputed from the load-time instant.  The
hypotheses are the dict invariants of a reachable registry: distinct,
non-empty job names, and every entry carrying a well-formed trigger
spec (interval jobs their interval; daily jobs a time of day the
library accepted when the entry was created). -/
theorem c8_save_load_roundtrip (now : DateTime) (jobs : Registry)
    (hnd : (jobs.map Prod.fst).Nodup)
    (hne : ∀ pr ∈ jobs, pr.1 ≠ "")
    (hwfm : ∀ pr ∈ jobs, jobTriggerOk pr.2 = true) :
    ∃ jobs2,
      load_schedule now (save_schedule jobs) = some jobs2 ∧
      jobs2.map Prod.fst = jobs.map Prod.fst ∧
      (jobs2.map fun pr => triggerOf pr.2) =
        (jobs.map fun pr => triggerOf pr.2) := by
  have hsave : save_schedule jobs = jobs.map fun p => (p.1, savedOf p.2) := by
    unfold save_schedule savedOf
    rfl
  have hnames : (save_schedule jobs).map Prod.fst = jobs.map Prod.fst := by
    rw [hsave, List.map_map]
    rfl
  have hload := loadJobs_append now (save_schedule jobs) []
    (by rw [hnames]; exact hnd)
    (by intro pr hpr; rfl)
    (by
      intro pr hpr
      rw [hsave] at hpr
      obtain ⟨q, hq, hqe⟩ := List.mem_map.mp hpr
      rw [← hqe]
      exact hne q hq)
    (by
      intro pr hpr
      rw [hsave] at hpr
      obtain ⟨q, hq, hqe⟩ := List.mem_map.mp hpr
      rw [← hqe]
      exact hwfm q hq)
  refine ⟨_, hload, ?_, ?_⟩
  · simp only [List.nil_append, List.map_map]
    rw [hsave, List.map_map]
    rfl
  · simp only [List.nil_append, List.map_map]
    rw [hsave, List.map_map]
    refine List.map_congr_left fun p _ => ?_
    exact triggerOf_rebuild now p.2

/-- Interval registry entry for the C8 witness. -/
def jobK : JobInfo :=
  { workflow := wfT
    schedule_time := none
    interval_minutes := some 30
    repeatFlag := true
    created_at := ⟨0, 8, 0, 0⟩
    last_run := none
    next_run := ⟨0, 8, 30, 0⟩
    last_result := none
    last_error := none }

/-- Witness for C8 at a concrete two-job registry (one daily job, one
interval job). -/
theorem c8_save_load_roundtrip_witness :
    ∃ jobs2,
      load_schedule ⟨1, 12, 0, 0⟩
          (save_schedule [("j", jobJ), ("k", jobK)]) = some jobs2 ∧
      jobs2.map Prod.fst = ([("j", jobJ), ("k", jobK)] : Registry).map Prod.fst ∧
      (jobs2.map fun pr => triggerOf pr.2) =
        (([("j", jobJ), ("k", jobK)] : Registry).map fun pr => triggerOf pr.2) :=
  c8_save_load_roundtrip ⟨1, 12, 0, 0⟩ [("j", jobJ), ("k", jobK)]
    (by decide) (by decide) (by decide)

end Playright
